import Mathlib

/-!
Verification development for the multiplayer session layer of
`hortonew/multiplayer_bevy_k8s` (server, 3D client, 2D client).

The embedding idealizes `f32`/`f64` arithmetic as exact arithmetic:
rational numbers (`ℚ`) for index-derived hue/saturation/lightness values,
timestamps and positions, and real numbers (`ℝ`) for color channels, whose
computation passes through the irrational sRGB transfer function
(exponent 2.4) and through Euclidean distances (`Real.sqrt`).
`f32::INFINITY`, used as the seed of the minimum-distance fold in
`pick_new_player_color`, is modelled as `⊤ : WithTop ℝ`.
-/

namespace Multiplayer

/-- A 3-vector of coordinates, modelling `[f32; 3]` / `Vec3` payloads. -/
abbrev Pos := ℚ × ℚ × ℚ

/-- An RGBA color, modelling `[f32; 4]` (channels `r`, `g`, `b`, `a`). -/
structure Col where
  r : ℝ
  g : ℝ
  b : ℝ
  a : ℝ

/-- The array `[0.0; 4]`, initial value of `best_candidate` in
`pick_new_player_color` (server `main.rs` line 95). -/
noncomputable def zeroColor : Col := ⟨0, 0, 0, 0⟩

/-- Floating-point remainder `a % b` of Rust, restricted to the nonnegative
operands used by `get_player_color`; for `a ≥ 0`, `b > 0` Rust's truncated
remainder agrees with `a - b * ⌊a / b⌋`. -/
def fmod (a b : ℚ) : ℚ := a - b * ⌊a / b⌋

/-- `GOLDEN_RATIO_CONJUGATE: f32 = 0.618_034` (server `main.rs` line 52). -/
def GOLDEN_RATIO_CONJUGATE : ℚ := 0.618034

/-- `(base_hue + (index as f32 * GOLDEN_RATIO_CONJUGATE * 137.5)) % 360.0`
with `base_hue = 220.0` (server `main.rs` lines 55-58). -/
def raw_hue (index : Nat) : ℚ :=
  fmod (220 + (index : ℚ) * GOLDEN_RATIO_CONJUGATE * 137.5) 360

/-- The green-band remap of the hue (server `main.rs` lines 61-65):
`(80.0..160.0).contains(&raw_hue)` selects `160.0 + (raw_hue - 80.0) % 360.0`.
In the source the `%` binds to the whole shifted sum, computed at f32
precision; operands stay in `[160, 240)` so the remainder is the identity. -/
def hue (index : Nat) : ℚ :=
  if 80 ≤ raw_hue index ∧ raw_hue index < 160 then
    fmod (160 + (raw_hue index - 80)) 360
  else
    raw_hue index

/-- `0.65 + ((index * 37) % 10) as f32 * 0.015` (server `main.rs` lines 68, 71). -/
def saturation (index : Nat) : ℚ := 0.65 + (((index * 37) % 10 : Nat) : ℚ) * 0.015

/-- `0.45 + ((index * 53) % 10) as f32 * 0.015` (server `main.rs` lines 69, 72). -/
def lightness (index : Nat) : ℚ := 0.45 + (((index * 53) % 10 : Nat) : ℚ) * 0.015

/-- Standard HSL → sRGB conversion (the `palette` crate's
`Srgb::from_color(Hsl::new(h, s, l))` for `h ∈ [0, 360)`):
chroma/sector formula, exact on rationals. -/
def hslToSrgb (h s l : ℚ) : ℚ × ℚ × ℚ :=
  let c := (1 - |2 * l - 1|) * s
  let hp := h / 60
  let x := c * (1 - |fmod hp 2 - 1|)
  let m := l - c / 2
  let rgb1 : ℚ × ℚ × ℚ :=
    if hp < 1 then (c, x, 0)
    else if hp < 2 then (x, c, 0)
    else if hp < 3 then (0, c, x)
    else if hp < 4 then (0, x, c)
    else if hp < 5 then (x, 0, c)
    else (c, 0, x)
  (rgb1.1 + m, rgb1.2.1 + m, rgb1.2.2 + m)

/-- Standard sRGB → linear transfer function (the `palette` crate's
`into_linear()` per channel): `c / 12.92` below the toe, else
`((c + 0.055) / 1.055) ^ 2.4`. -/
noncomputable def srgbToLinear (c : ℚ) : ℝ :=
  if c ≤ 0.04045 then (c : ℝ) / 12.92
  else Real.rpow (((c : ℝ) + 0.055) / 1.055) 2.4

/-- `Hsl::new(h, s, l)` converted to linear RGBA with alpha `1.0`
(server `main.rs` lines 75-80: `Srgb::from_color`, `into_linear`,
`with_alpha(1.0)`). -/
noncomputable def hslToLinearRgba (h s l : ℚ) : Col :=
  let rgb := hslToSrgb h s l
  ⟨srgbToLinear rgb.1, srgbToLinear rgb.2.1, srgbToLinear rgb.2.2, 1⟩

/-- `get_player_color(index)` (server `main.rs` lines 48-81). -/
noncomputable def get_player_color (index : Nat) : Col :=
  hslToLinearRgba (hue index) (saturation index) (lightness index)

/-- `color_distance(a, b)` (server `main.rs` lines 84-89): Euclidean
distance over the RGB channels (alpha ignored). -/
noncomputable def color_distance (a b : Col) : ℝ :=
  Real.sqrt ((a.r - b.r) * (a.r - b.r) + (a.g - b.g) * (a.g - b.g) +
    (a.b - b.b) * (a.b - b.b))

/-- The fold `selected.colors.iter().map(|c| color_distance(c, &candidate))
.fold(f32::INFINITY, f32::min)` (server `main.rs` lines 99-103). -/
noncomputable def min_distance (selected : List Col) (candidate : Col) : WithTop ℝ :=
  (selected.map fun c => ((color_distance c candidate : ℝ) : WithTop ℝ)).foldl min ⊤

/-- The `for i in 0..20` loop of `pick_new_player_color` (server `main.rs`
lines 97-112), recursing over the list of remaining loop indices. Both exits
push the color they are about to return, so the pushes are floated out to
`pick_new_player_color`. -/
noncomputable def pickLoop (selected : List Col) (base : Nat) (best_candidate : Col)
    (best_distance : WithTop ℝ) : List Nat → Col
  | [] => best_candidate
  | i :: rest =>
    let candidate := get_player_color (base + i)
    let md := min_distance selected candidate
    if ((0.3 : ℝ) : WithTop ℝ) ≤ md then candidate
    else if best_distance < md then pickLoop selected base candidate md rest
    else pickLoop selected base best_candidate best_distance rest

/-- `pick_new_player_color(selected)` (server `main.rs` lines 92-115):
returns the chosen color and the updated palette `selected.colors`
(the chosen color is pushed before returning, in both exits). -/
noncomputable def pick_new_player_color (selected : List Col) : Col × List Col :=
  let base := selected.length
  let c := pickLoop selected base zeroColor ((0 : ℝ) : WithTop ℝ) (List.range 20)
  (c, selected ++ [c])

/-- Reference recursion for the no-candidate-qualifies path of `pickLoop`:
keep the running best `(best_candidate, best_distance)`, updating on strict
improvement only. -/
noncomputable def foldBest (selected : List Col) (base : Nat) (best_candidate : Col)
    (best_distance : WithTop ℝ) : List Nat → Col
  | [] => best_candidate
  | i :: rest =>
    let md := min_distance selected (get_player_color (base + i))
    if best_distance < md then foldBest selected base (get_player_color (base + i)) md rest
    else foldBest selected base best_candidate best_distance rest

/-- `PlayerInput` (server `main.rs` lines 16-22). -/
structure PlayerInput where
  up : Bool
  down : Bool
  left : Bool
  right : Bool
deriving DecidableEq

/-- `PlayerInput::default()`. -/
def playerInputDefault : PlayerInput := ⟨false, false, false, false⟩

/-- One server-side player entity: the components attached on spawn
(server `main.rs` lines 216-223) plus the optional `Disconnected`
marker (lines 32-35) holding `disconnect_time`. -/
structure PlayerData where
  pos : Pos
  input : PlayerInput
  color : Col
  disconnected : Option ℚ

/-- `ServerMessages` (server `main.rs` lines 117-121). -/
inductive ServerMessage where
  | playerConnected (id : Nat) (color : Col)
  | playerDisconnected (id : Nat)

/-- `ServerEvent` of bevy_renet, as consumed by `server_update_system`. -/
inductive ServerEvent where
  | clientConnected (id : Nat)
  | clientDisconnected (id : Nat)

/-- Server session registry: `Lobby.players` (id → entity) fused with
each entity's components, plus the `SelectedColors` palette resource. -/
structure ServerState where
  lobby : List (Nat × PlayerData)
  selected : List Col

/-- First-occurrence association-list lookup, modelling `HashMap::get`. -/
def lookupA {α : Type _} : List (Nat × α) → Nat → Option α
  | [], _ => none
  | e :: rest, k => if e.1 = k then some e.2 else lookupA rest k

/-- First-occurrence association-list value update; the key set is unchanged
(an absent key leaves the list unchanged). Models mutating the components of
the entity a `HashMap` entry points to. -/
def updateA {α : Type _} : List (Nat × α) → Nat → α → List (Nat × α)
  | [], _, _ => []
  | e :: rest, k, v => if e.1 = k then (k, v) :: rest else e :: updateA rest k v

/-- One `ServerEvent` arm of `server_update_system` (server `main.rs`
lines 205-243): returns the new state and the broadcasts it emits.
`ClientConnected` with a known id only removes the `Disconnected` marker;
with an unknown id it picks a fresh color, spawns the entity at
`(0, 0.5, 0)` with default input, and broadcasts `PlayerConnected`.
`ClientDisconnected` with a known id inserts the `Disconnected` marker
with `disconnect_time = now` and broadcasts `PlayerDisconnected`; with an
unknown id it does nothing. -/
noncomputable def handleServerEvent (now : ℚ) (st : ServerState) :
    ServerEvent → ServerState × List ServerMessage
  | .clientConnected id =>
    match lookupA st.lobby id with
    | some pd =>
      ({ st with lobby := updateA st.lobby id { pd with disconnected := none } }, [])
    | none =>
      let r := pick_new_player_color st.selected
      let pd : PlayerData := ⟨(0, 1/2, 0), playerInputDefault, r.1, none⟩
      ({ lobby := st.lobby ++ [(id, pd)], selected := r.2 },
        [ServerMessage.playerConnected id r.1])
  | .clientDisconnected id =>
    match lookupA st.lobby id with
    | some pd =>
      ({ st with lobby := updateA st.lobby id { pd with disconnected := some now } },
        [ServerMessage.playerDisconnected id])
    | none => (st, [])

/-- The event-draining loop of `server_update_system`, folding
`handleServerEvent` over the tick's events and concatenating broadcasts. -/
noncomputable def server_update_system (now : ℚ) (events : List ServerEvent)
    (st : ServerState) : ServerState × List ServerMessage :=
  events.foldl (fun acc ev =>
    let r := handleServerEvent now acc.1 ev
    (r.1, acc.2 ++ r.2)) (st, [])

/-- The input-drain part of `server_update_system` (server `main.rs`
lines 245-252): a received `PlayerInput` replaces the component of the
sender's entity when the sender is in the lobby, else it is dropped. -/
def apply_client_input (lobby : List (Nat × PlayerData)) (id : Nat)
    (inp : PlayerInput) : List (Nat × PlayerData) :=
  match lookupA lobby id with
  | some pd => updateA lobby id { pd with input := inp }
  | none => lobby

/-- `cleanup_disconnected_system` (server `main.rs` lines 256-276): every
entity with a `Disconnected` marker whose `disconnect_time` satisfies
`now - disconnect_time > grace` is removed from the lobby and despawned. -/
def cleanup_disconnected_system (now grace : ℚ) (lobby : List (Nat × PlayerData)) :
    List (Nat × PlayerData) :=
  lobby.filter fun e =>
    match e.2.disconnected with
    | some d => !(decide (now - d > grace))
    | none => true

/-- `server_sync_players` (server `main.rs` lines 279-286): the broadcast
snapshot built from every entity with `Transform`, `Player` and
`PlayerColor` components — the `Disconnected` marker does not remove any of
those components, so disconnected entities are included. -/
def server_sync_players (lobby : List (Nat × PlayerData)) : List (Nat × (Pos × Col)) :=
  lobby.map fun e => (e.1, (e.2.pos, e.2.color))

/-- Result of the client connect supervisor `new_renet_client`: either a
session established on attempt `attempts`, or a panic after `attempts`
attempts; `sleeps` lists the delays slept before each retry. -/
inductive ConnectResult where
  | connected (attempts : Nat) (sleeps : List ℚ)
  | fatal (attempts : Nat) (sleeps : List ℚ)
deriving DecidableEq

/-- The `while retries < settings.max_retries` loop of `new_renet_client`
(client `main.rs` lines 116-140, client-2d lines 329-353), with
`fuel = max_retries - retries` as the structural measure. `fails k` tells
whether the transport construction fails when the counter `retries = k`.
On failure: sleep `delay`, double it, increment `retries`. -/
def connectLoop (fails : Nat → Bool) : Nat → Nat → ℚ → List ℚ → ConnectResult
  | 0, retries, _, sleeps => .fatal retries sleeps
  | fuel + 1, retries, delay, sleeps =>
    if fails retries then connectLoop fails fuel (retries + 1) (delay * 2) (sleeps ++ [delay])
    else .connected (retries + 1) sleeps

/-- `new_renet_client` retry behavior (client `main.rs` lines 116-141):
starts at `retries = 0`, `delay = initial_delay`, panics once
`retries = max_retries`. -/
def new_renet_client (maxRetries : Nat) (initialDelay : ℚ) (fails : Nat → Bool) :
    ConnectResult :=
  connectLoop fails maxRetries 0 initialDelay []

/-- The exponential backoff schedule: `n` sleeps of
`initialDelay, 2·initialDelay, 4·initialDelay, …`. -/
def backoffDelays (initialDelay : ℚ) (n : Nat) : List ℚ :=
  (List.range n).map fun k => initialDelay * 2 ^ k

/-- 2D client view state: `Lobby.players` reduced to the data the claims
use (id → sprite translation), plus the `InitialSyncDone` resource
(client-2d `main.rs` lines 57-60, 68-69). -/
structure ClientView2d where
  players : List (Nat × Pos)
  initialSyncDone : Bool

/-- `Vec3::new(translation[0], -translation[2], 0.0)`
(client-2d `main.rs` line 399). -/
def snapTranslation2d (t : Pos) : Pos := (t.1, -t.2.2, 0)

/-- Body of the 2D snapshot entry loop (client-2d `main.rs` lines 398-423):
a known id gets its `Transform` overwritten; an unknown id is spawned and
inserted only while `InitialSyncDone` is unset; otherwise it is skipped. -/
def snapStep2d (syncDone : Bool) (players : List (Nat × Pos)) (e : Nat × (Pos × Col)) :
    List (Nat × Pos) :=
  match lookupA players e.1 with
  | some _ => updateA players e.1 (snapTranslation2d e.2.1)
  | none => if !syncDone then players ++ [(e.1, snapTranslation2d e.2.1)] else players

/-- Processing one unreliable snapshot message in the 2D client's
`client_sync_players` (client-2d `main.rs` lines 396-425): fold the entry
loop over the decoded map, then set `initial_sync.0 = true`. -/
def client_sync_snapshot_2d (st : ClientView2d) (snap : List (Nat × (Pos × Col))) :
    ClientView2d :=
  { players := snap.foldl (snapStep2d st.initialSyncDone) st.players,
    initialSyncDone := true }

/-- Body of the 3D snapshot entry loop (client `main.rs` lines 177-198):
a known id gets its `Transform` overwritten; an unknown id is always
spawned and inserted. -/
def snapStep3d (players : List (Nat × Pos)) (e : Nat × Pos) : List (Nat × Pos) :=
  match lookupA players e.1 with
  | some _ => updateA players e.1 e.2
  | none => players ++ [e]

/-- Processing one unreliable snapshot message in the 3D client's
`client_sync_players` (client `main.rs` lines 175-199). -/
def client_sync_snapshot_3d (players : List (Nat × Pos)) (snap : List (Nat × Pos)) :
    List (Nat × Pos) :=
  snap.foldl snapStep3d players

/-- The value attached to the last entry of `snap` carrying key `id`
(later snapshot entries overwrite earlier ones). -/
def lastVal {α : Type _} : List (Nat × α) → Nat → Option α
  | [], _ => none
  | e :: rest, id =>
    match lastVal rest id with
    | some v => some v
    | none => if e.1 = id then some e.2 else none

/-- Failure pattern for the connect supervisor: the transport construction
fails on the first attempt (`retries = 0`) and would succeed on any later
one. -/
def failsFirstOnly : Nat → Bool := fun k => decide (k = 0)

/-- A one-session lobby whose single session (id 7) entered Disconnected at
tick time 0. -/
noncomputable def graceWitnessLobby : List (Nat × PlayerData) :=
  [(7, ⟨(0, 0, 0), playerInputDefault, zeroColor, some 0⟩)]

/-- The twenty candidate colors `get_player_color(base + i)`, `i < 20`,
examined by `pick_new_player_color` on a palette of length `base`. -/
noncomputable def candidates (base : Nat) : List Col :=
  (List.range 20).map fun i => get_player_color (base + i)

/-- A 21-color palette that already contains every candidate its own length
makes `pick_new_player_color` generate, together with the zero color. -/
noncomputable def degeneratePalette : List Col := zeroColor :: candidates 21

/-- A 2D client view that knows id 1 and has completed its initial sync. -/
def syncWitnessView : ClientView2d := ⟨[(1, (0, 0, 0))], true⟩

/-- A snapshot carrying a single entry for the unknown id 2. -/
noncomputable def syncWitnessSnap : List (Nat × (Pos × Col)) :=
  [(2, ((5, 5, 5), zeroColor))]

/-! ## Arithmetic facts about `fmod` and the hue computation -/

theorem fmod_eq_mul_fract (a b : ℚ) (hb : b ≠ 0) :
    fmod a b = b * Int.fract (a / b) := by
  unfold fmod Int.fract
  rw [mul_sub, mul_div_cancel₀ a hb]

theorem fmod_nonneg (a : ℚ) {b : ℚ} (hb : 0 < b) : 0 ≤ fmod a b := by
  rw [fmod_eq_mul_fract a b hb.ne']
  exact mul_nonneg hb.le (Int.fract_nonneg _)

theorem fmod_lt (a : ℚ) {b : ℚ} (hb : 0 < b) : fmod a b < b := by
  rw [fmod_eq_mul_fract a b hb.ne']
  calc b * Int.fract (a / b) < b * 1 := (mul_lt_mul_left hb).mpr (Int.fract_lt_one _)
  _ = b := mul_one b

theorem fmod_eq_self {a b : ℚ} (h0 : 0 ≤ a) (hab : a < b) : fmod a b = a := by
  have hb : 0 < b := lt_of_le_of_lt h0 hab
  have hfl : ⌊a / b⌋ = 0 := by
    rw [Int.floor_eq_zero_iff]
    exact ⟨div_nonneg h0 hb.le, (div_lt_one hb).mpr hab⟩
  unfold fmod
  rw [hfl]
  push_cast
  ring

theorem raw_hue_nonneg (i : Nat) : 0 ≤ raw_hue i := fmod_nonneg _ (by norm_num)

theorem raw_hue_lt (i : Nat) : raw_hue i < 360 := fmod_lt _ (by norm_num)

/-- The final hue always avoids the dominant-green band `[80, 160)`:
either the raw hue is outside it already, or the remap shifts it into
`[160, 240)`. -/
theorem hue_not_in_green_band (i : Nat) : ¬(80 ≤ hue i ∧ hue i < 160) := by
  unfold hue
  by_cases h : 80 ≤ raw_hue i ∧ raw_hue i < 160
  · rw [if_pos h]
    have h1 : (0 : ℚ) ≤ 160 + (raw_hue i - 80) := by linarith [h.1]
    have h2 : 160 + (raw_hue i - 80) < 360 := by linarith [h.2]
    rw [fmod_eq_self h1 h2]
    intro hc
    linarith [hc.2, h.1]
  · rw [if_neg h]
    exact h

/-- C6: `allocate(i)` (`get_player_color`) is a deterministic function of
the index: hue `(220 + i · 0.618034 · 137.5) mod 360`, remapped by
`h ↦ (160 + (h − 80)) mod 360` exactly when the raw hue lies in
`[80, 160)` — so the final hue never lies in `[80, 160)` — saturation
`0.65 + ((i·37) mod 10) · 0.015`, lightness
`0.45 + ((i·53) mod 10) · 0.015`, and the result is that HSL color
converted to linear RGBA with alpha 1.0. -/
theorem get_player_color_spec (index : Nat) :
    get_player_color index = hslToLinearRgba (hue index) (saturation index) (lightness index)
    ∧ raw_hue index = fmod (220 + (index : ℚ) * 0.618034 * 137.5) 360
    ∧ hue index = (if 80 ≤ raw_hue index ∧ raw_hue index < 160
        then fmod (160 + (raw_hue index - 80)) 360 else raw_hue index)
    ∧ ¬(80 ≤ hue index ∧ hue index < 160)
    ∧ saturation index = 0.65 + (((index * 37) % 10 : Nat) : ℚ) * 0.015
    ∧ lightness index = 0.45 + (((index * 53) % 10 : Nat) : ℚ) * 0.015
    ∧ (get_player_color index).a = 1 :=
  ⟨rfl, rfl, rfl, hue_not_in_green_band index, rfl, rfl, rfl⟩

/-- Witness for C6 at index 0. -/
theorem get_player_color_spec_witness :
    ¬(80 ≤ hue 0 ∧ hue 0 < 160) ∧ (get_player_color 0).a = 1 :=
  ⟨(get_player_color_spec 0).2.2.2.1, (get_player_color_spec 0).2.2.2.2.2.2⟩

/-! ## The connect retry loop -/

theorem connectLoop_spec (f : Nat → Bool) (fuel : Nat) :
    ∀ (retries : Nat) (delay : ℚ) (sleeps : List ℚ),
    connectLoop f fuel retries delay sleeps =
      match (List.range fuel).find? (fun j => !(f (retries + j))) with
      | some j => ConnectResult.connected (retries + j + 1)
          (sleeps ++ (List.range j).map fun k => delay * 2 ^ k)
      | none => ConnectResult.fatal (retries + fuel)
          (sleeps ++ (List.range fuel).map fun k => delay * 2 ^ k) := by
  induction fuel with
  | zero =>
    intro r d s
    simp [connectLoop]
  | succ n ih =>
    intro r d s
    rw [connectLoop]
    have harg : ((fun j => !(f (r + j))) ∘ Nat.succ) = fun j => !(f (r + 1 + j)) := by
      funext j
      simp only [Function.comp]
      congr 2
      omega
    by_cases hf : f r
    · rw [if_pos hf, ih]
      have hsplit : (List.range (n + 1)).find? (fun j => !(f (r + j)))
          = ((List.range n).find? fun j => !(f (r + 1 + j))).map Nat.succ := by
        rw [List.range_succ_eq_map, List.find?_cons_of_neg _ (by simp [hf]),
          List.find?_map, harg]
      have hmap : ∀ j : Nat,
          (s ++ [d]) ++ (List.range j).map (fun k => d * 2 * 2 ^ k)
            = s ++ (List.range (j + 1)).map fun k => d * 2 ^ k := by
        intro j
        have hfun : ((fun k => d * 2 ^ k) ∘ Nat.succ) = fun k => d * 2 * 2 ^ k := by
          funext k
          simp only [Function.comp, Nat.succ_eq_add_one, pow_succ]
          ring
        simp [List.range_succ_eq_map, List.map_map, hfun]
      rw [hsplit]
      cases hfind : (List.range n).find? fun j => !(f (r + 1 + j)) with
      | none =>
        simp only [hfind, Option.map_none']
        rw [hmap n]
        have hn : r + 1 + n = r + (n + 1) := by omega
        rw [hn]
      | some j =>
        simp only [hfind, Option.map_some', Nat.succ_eq_add_one]
        rw [hmap j]
        have hj : r + 1 + j + 1 = r + (j + 1) + 1 := by omega
        rw [hj]
    · rw [if_neg hf]
      have hfound : (List.range (n + 1)).find? (fun j => !(f (r + j))) = some 0 := by
        rw [List.range_succ_eq_map, List.find?_cons_of_pos _ (by simp [hf])]
      rw [hfound]
      simp

/-- C1 (amended): the connect supervisor succeeds on attempt `n + 1` with
sleeps `initialDelay · 2^k` (`k < n`) when the first failure-free attempt
index `n` exists below `maxRetries`, and otherwise panics after exactly
`maxRetries` attempts — it never performs an attempt `maxRetries + 1`. -/
theorem new_renet_client_spec (mr : Nat) (d : ℚ) (f : Nat → Bool) :
    new_renet_client mr d f =
      match (List.range mr).find? (fun k => !(f k)) with
      | some n => ConnectResult.connected (n + 1) (backoffDelays d n)
      | none => ConnectResult.fatal mr (backoffDelays d mr) := by
  unfold new_renet_client backoffDelays
  rw [connectLoop_spec]
  simp

/-- C1 counterexample: with `maxRetries = 1` and a failure sequence of
exactly `n = 1 ≤ maxRetries` failure followed by success, the claim
predicts a successful connection on attempt `n + 1 = 2`; the code instead
panics after 1 attempt (the loop never reaches attempt `maxRetries + 1`). -/
theorem new_renet_client_boundary_cx :
    failsFirstOnly 0 = true ∧ failsFirstOnly 1 = false ∧
    new_renet_client 1 1 failsFirstOnly = ConnectResult.fatal 1 [1] ∧
    new_renet_client 1 1 failsFirstOnly ≠ ConnectResult.connected 2 [1] := by
  decide

/-! ## Association-list facts -/

theorem lookupA_isSome_iff {α : Type _} (l : List (Nat × α)) (id : Nat) :
    (lookupA l id).isSome = true ↔ id ∈ l.map Prod.fst := by
  induction l with
  | nil => simp [lookupA]
  | cons e rest ih =>
    by_cases h : e.1 = id
    · simp [lookupA, h]
    · rw [List.map_cons, List.mem_cons, or_iff_right fun hx => h hx.symm]
      simpa [lookupA, h] using ih

/-! ## Grace-period cleanup -/

/-- C2 (amended): a session that entered Disconnected at tick time `T` with
grace period `G` is present at every tick whose time `t` satisfies
`t ≤ T + G` (the boundary tick `t = T + G` included), and is removed at any
tick with `t > T + G`: the code's removal test is the strict
`now - disconnect_time > grace`. -/
theorem cleanup_grace_spec (now grace T : ℚ) (lobby : List (Nat × PlayerData))
    (id : Nat) (pd : PlayerData) (hmem : (id, pd) ∈ lobby)
    (hT : pd.disconnected = some T) :
    (now ≤ T + grace → id ∈ (cleanup_disconnected_system now grace lobby).map Prod.fst)
    ∧ ((∀ pd', (id, pd') ∈ lobby → pd'.disconnected = some T) → T + grace < now →
        id ∉ (cleanup_disconnected_system now grace lobby).map Prod.fst) := by
  constructor
  · intro hle
    refine List.mem_map.mpr ⟨(id, pd), List.mem_filter.mpr ⟨hmem, ?_⟩, rfl⟩
    show (match pd.disconnected with
      | some d => !(decide (now - d > grace))
      | none => true) = true
    rw [hT]
    simp only [Bool.not_eq_true', decide_eq_false_iff_not, not_lt]
    linarith
  · intro hall hgt hin
    obtain ⟨e, he, hefst⟩ := List.mem_map.mp hin
    obtain ⟨k, pde⟩ := e
    obtain ⟨hel, hep⟩ := List.mem_filter.mp he
    dsimp at hefst
    subst hefst
    have hd : pde.disconnected = some T := hall pde hel
    rw [show (match (k, pde).2.disconnected with
          | some d => !(decide (now - d > grace))
          | none => true)
        = !(decide (now - T > grace)) by rw [hd]] at hep
    simp only [Bool.not_eq_true', decide_eq_false_iff_not, not_lt] at hep
    linarith

/-- Witness for C2 at `T = 0`, `G = 30`: id 7 is still present at the
boundary tick `t = 30` and gone at `t = 31`. -/
theorem cleanup_grace_spec_witness :
    7 ∈ (cleanup_disconnected_system 30 30 graceWitnessLobby).map Prod.fst
    ∧ 7 ∉ (cleanup_disconnected_system 31 30 graceWitnessLobby).map Prod.fst := by
  constructor
  · exact (cleanup_grace_spec 30 30 0 graceWitnessLobby 7
      ⟨(0, 0, 0), playerInputDefault, zeroColor, some 0⟩
      (List.mem_singleton.mpr rfl) rfl).1 (by norm_num)
  · refine (cleanup_grace_spec 31 30 0 graceWitnessLobby 7
      ⟨(0, 0, 0), playerInputDefault, zeroColor, some 0⟩
      (List.mem_singleton.mpr rfl) rfl).2 ?_ (by norm_num)
    intro pd' h
    have h2 : (7, pd') = ((7 : Nat),
        (⟨(0, 0, 0), playerInputDefault, zeroColor, some 0⟩ : PlayerData)) :=
      List.mem_singleton.mp h
    have h3 : pd' = ⟨(0, 0, 0), playerInputDefault, zeroColor, some 0⟩ :=
      congrArg Prod.snd h2
    rw [h3]

/-- C2 counterexample: the claim predicts removal at the first tick with
`t ≥ T + G`; at the boundary tick `t = 30 = 0 + 30` the code keeps the
session because its test `now - disconnect_time > grace` is strict. -/
theorem cleanup_grace_boundary_cx :
    (0 : ℚ) + 30 ≤ 30 ∧
    7 ∈ (cleanup_disconnected_system 30 30 graceWitnessLobby).map Prod.fst := by
  constructor
  · norm_num
  · exact (cleanup_grace_spec 30 30 0 graceWitnessLobby 7
      ⟨(0, 0, 0), playerInputDefault, zeroColor, some 0⟩
      (List.mem_singleton.mpr rfl) rfl).1 (by norm_num)

/-! ## Snapshot broadcast -/

/-- C3 (amended): the per-tick broadcast snapshot contains an entry for an
id exactly when that id has a session in the registry — whether Active or
Disconnected (within the grace period) — and the entry carries the
session's position and color. -/
theorem server_sync_players_spec (lobby : List (Nat × PlayerData)) (id : Nat) :
    lookupA (server_sync_players lobby) id
      = (lookupA lobby id).map (fun pd => (pd.pos, pd.color))
    ∧ (id ∈ (server_sync_players lobby).map Prod.fst ↔ id ∈ lobby.map Prod.fst) := by
  have h1 : lookupA (server_sync_players lobby) id
      = (lookupA lobby id).map (fun pd => (pd.pos, pd.color)) := by
    induction lobby with
    | nil => rfl
    | cons e rest ih =>
      by_cases h : e.1 = id
      · simp [server_sync_players, lookupA, h]
      · simpa [server_sync_players, lookupA, h] using ih
  refine ⟨h1, ?_⟩
  rw [← lookupA_isSome_iff, ← lookupA_isSome_iff, h1]
  simp

/-- C3 counterexample: a session that is Disconnected (id 7, marker set at
time 0) still appears in the broadcast snapshot, contradicting the claim
that the snapshot contains no entry for a Disconnected session. -/
theorem server_sync_players_disconnected_cx :
    (lookupA graceWitnessLobby 7).map PlayerData.disconnected = some (some 0)
    ∧ 7 ∈ (server_sync_players graceWitnessLobby).map Prod.fst := by
  refine ⟨rfl, ?_⟩
  exact ((server_sync_players_spec graceWitnessLobby 7).2).mpr
    (by simp [graceWitnessLobby])

/-! ## Connect / disconnect event handling -/

/-- C5: a client-connected event whose id already has a session
(reattachment) only clears the `Disconnected` marker, making the session
Active again: its color is unchanged, the palette is untouched (no color is
allocated), and no message is broadcast. -/
theorem reattach_spec (now : ℚ) (st : ServerState) (id : Nat) (pd : PlayerData)
    (h : lookupA st.lobby id = some pd) :
    handleServerEvent now st (ServerEvent.clientConnected id)
      = ({ st with lobby := updateA st.lobby id { pd with disconnected := none } }, []) := by
  simp [handleServerEvent, h]

/-- Witness for C5: reattaching the Disconnected id 7 clears its marker,
keeps `zeroColor`, and broadcasts nothing. -/
theorem reattach_spec_witness :
    handleServerEvent 5 ⟨graceWitnessLobby, []⟩ (ServerEvent.clientConnected 7)
      = (⟨[(7, ⟨(0, 0, 0), playerInputDefault, zeroColor, none⟩)], []⟩, []) := by
  have h := reattach_spec 5 ⟨graceWitnessLobby, []⟩ 7
    ⟨(0, 0, 0), playerInputDefault, zeroColor, some 0⟩ rfl
  simpa [graceWitnessLobby, updateA] using h

/-- C7: a client-disconnected event for an id with no session in the
registry is a no-op: the state is unchanged and nothing is broadcast. -/
theorem unknown_disconnect_noop (now : ℚ) (st : ServerState) (id : Nat)
    (h : lookupA st.lobby id = none) :
    handleServerEvent now st (ServerEvent.clientDisconnected id) = (st, []) := by
  simp [handleServerEvent, h]

/-- Witness for C7: a disconnect event for the unknown id 9 leaves the
one-session state untouched and broadcasts nothing. -/
theorem unknown_disconnect_noop_witness :
    handleServerEvent 0 ⟨graceWitnessLobby, []⟩ (ServerEvent.clientDisconnected 9)
      = (⟨graceWitnessLobby, []⟩, []) :=
  unknown_disconnect_noop 0 ⟨graceWitnessLobby, []⟩ 9 rfl

theorem lookupA_updateA {α : Type _} (ps : List (Nat × α)) (k id : Nat) (v : α) :
    lookupA (updateA ps k v) id =
      if k = id ∧ (lookupA ps k).isSome then some v else lookupA ps id := by
  induction ps with
  | nil => simp [lookupA, updateA]
  | cons e rest ih =>
    by_cases hek : e.1 = k
    · rw [updateA, if_pos hek]
      by_cases hkid : k = id
      · subst hkid
        simp [lookupA, hek]
      · simp [lookupA, hek, hkid]
    · rw [updateA, if_neg hek]
      by_cases heid : e.1 = id
      · have hkid : ¬(k = id) := fun hc => hek (heid.trans hc.symm)
        simp [lookupA, heid, hkid]
      · simp [lookupA, heid, hek, ih]

theorem lookupA_append {α : Type _} (ps qs : List (Nat × α)) (id : Nat) :
    lookupA (ps ++ qs) id =
      match lookupA ps id with
      | some w => some w
      | none => lookupA qs id := by
  induction ps with
  | nil => simp [lookupA]
  | cons e rest ih =>
    by_cases h : e.1 = id
    · simp [lookupA, h]
    · simp [lookupA, h, ih]

/-! ## Snapshot application on the client views -/

/-- Lookup after one 2D snapshot message processed with the
initial-sync-done flag set: known ids are overwritten with the snapshot's
last value for them, unknown ids stay absent. -/
theorem snap2d_lookup_done (snap : List (Nat × (Pos × Col))) (ps : List (Nat × Pos))
    (id : Nat) :
    lookupA (snap.foldl (snapStep2d true) ps) id =
      match lastVal snap id with
      | some v => if (lookupA ps id).isSome then some (snapTranslation2d v.1)
          else lookupA ps id
      | none => lookupA ps id := by
  induction snap generalizing ps with
  | nil => simp [lastVal]
  | cons e rest ih =>
    rw [List.foldl_cons, ih]
    have hstep : lookupA (snapStep2d true ps e) id =
        if e.1 = id ∧ (lookupA ps id).isSome then some (snapTranslation2d e.2.1)
        else lookupA ps id := by
      unfold snapStep2d
      rcases hpe : lookupA ps e.1 with _ | w <;> simp only [hpe]
      · by_cases hei : e.1 = id
        · subst hei
          simp [hpe]
        · simp [hei]
      · rw [lookupA_updateA]
        by_cases hei : e.1 = id
        · subst hei
          simp [hpe]
        · simp [hei]
    cases hl : lastVal rest id with
    | some v =>
      simp only [lastVal, hl]
      rw [hstep]
      by_cases hc : e.1 = id ∧ (lookupA ps id).isSome
      · rw [if_pos hc]
        simp [hc.2]
      · rw [if_neg hc]
    | none =>
      simp only [lastVal, hl]
      by_cases hei : e.1 = id
      · simp only [if_pos hei]
        rw [hstep]
        simp [hei]
      · simp only [if_neg hei]
        rw [hstep]
        simp [hei]

/-- Lookup after one 2D snapshot message processed with the
initial-sync-done flag still unset: every id carried by the snapshot ends up
present with the snapshot's last (remapped) translation for it. -/
theorem snap2d_lookup_fresh (snap : List (Nat × (Pos × Col))) (ps : List (Nat × Pos))
    (id : Nat) :
    lookupA (snap.foldl (snapStep2d false) ps) id =
      match lastVal snap id with
      | some v => some (snapTranslation2d v.1)
      | none => lookupA ps id := by
  induction snap generalizing ps with
  | nil => simp [lastVal]
  | cons e rest ih =>
    rw [List.foldl_cons, ih]
    have hstep : lookupA (snapStep2d false ps e) id =
        if e.1 = id then some (snapTranslation2d e.2.1) else lookupA ps id := by
      unfold snapStep2d
      rcases hpe : lookupA ps e.1 with _ | w <;> simp only [hpe]
      · rw [Bool.not_false, if_pos rfl, lookupA_append]
        by_cases hei : e.1 = id
        · subst hei
          simp [hpe, lookupA]
        · cases hq : lookupA ps id <;> simp [hq, lookupA, hei]
      · rw [lookupA_updateA]
        by_cases hei : e.1 = id
        · subst hei
          simp [hpe]
        · simp [hei]
    cases hl : lastVal rest id with
    | some v =>
      simp only [lastVal, hl]
    | none =>
      simp only [lastVal, hl]
      by_cases hei : e.1 = id
      · simp [hei, hstep]
      · simp [hei, hstep]

/-- Lookup after one 3D snapshot message: every id carried by the snapshot
ends up present with the snapshot's last value for it (unknown ids are
always spawned). -/
theorem snap3d_lookup (snap ps : List (Nat × Pos)) (id : Nat) :
    lookupA (client_sync_snapshot_3d ps snap) id =
      match lastVal snap id with
      | some v => some v
      | none => lookupA ps id := by
  unfold client_sync_snapshot_3d
  induction snap generalizing ps with
  | nil => simp [lastVal]
  | cons e rest ih =>
    rw [List.foldl_cons, ih]
    have hstep : lookupA (snapStep3d ps e) id =
        if e.1 = id then some e.2 else lookupA ps id := by
      unfold snapStep3d
      rcases hpe : lookupA ps e.1 with _ | w <;> simp only [hpe]
      · rw [lookupA_append]
        by_cases hei : e.1 = id
        · subst hei
          simp [hpe, lookupA]
        · cases hq : lookupA ps id <;> simp [hq, lookupA, hei]
      · rw [lookupA_updateA]
        by_cases hei : e.1 = id
        · subst hei
          simp [hpe]
        · simp [hei]
    cases hl : lastVal rest id with
    | some v =>
      simp only [lastVal, hl]
    | none =>
      simp only [lastVal, hl]
      by_cases hei : e.1 = id
      · simp [hei, hstep]
      · simp [hei, hstep]

/-- C8: applying the same snapshot message twice in succession yields the
same ClientView as applying it once, on both clients: every id resolves to
the same position, so the set of known ids and their positions agree (and,
for the 2D client, the initial-sync flag agrees as well). -/
theorem snapshot_idempotent (v3 s3 : List (Nat × Pos)) (st : ClientView2d)
    (s2 : List (Nat × (Pos × Col))) (id : Nat) :
    lookupA (client_sync_snapshot_3d (client_sync_snapshot_3d v3 s3) s3) id
      = lookupA (client_sync_snapshot_3d v3 s3) id
    ∧ lookupA (client_sync_snapshot_2d (client_sync_snapshot_2d st s2) s2).players id
      = lookupA (client_sync_snapshot_2d st s2).players id
    ∧ (client_sync_snapshot_2d (client_sync_snapshot_2d st s2) s2).initialSyncDone
      = (client_sync_snapshot_2d st s2).initialSyncDone := by
  refine ⟨?_, ?_, rfl⟩
  · simp only [snap3d_lookup]
    cases hl : lastVal s3 id <;> simp [hl]
  · rw [show (client_sync_snapshot_2d (client_sync_snapshot_2d st s2) s2).players
      = s2.foldl (snapStep2d true) (client_sync_snapshot_2d st s2).players from rfl]
    rw [snap2d_lookup_done]
    cases hl : lastVal s2 id with
    | none => simp
    | some v =>
      simp only
      cases hsd : st.initialSyncDone with
      | false =>
        rw [show (client_sync_snapshot_2d st s2).players
          = s2.foldl (snapStep2d st.initialSyncDone) st.players from rfl, hsd]
        rw [snap2d_lookup_fresh]
        simp [hl]
      | true =>
        rw [show (client_sync_snapshot_2d st s2).players
          = s2.foldl (snapStep2d st.initialSyncDone) st.players from rfl, hsd]
        rw [snap2d_lookup_done]
        simp only [hl]
        by_cases hs : (lookupA st.players id).isSome
        · simp [hs]
        · simp [hs]

/-- C9: the 2D client sets the initial-sync-done flag after processing any
snapshot message; once it is set, processing a snapshot never adds a new id
to the view, while with the flag unset every id carried by the snapshot is
synthesized into the view. -/
theorem initial_sync_flag_spec (st : ClientView2d) (snap : List (Nat × (Pos × Col)))
    (id : Nat) :
    (client_sync_snapshot_2d st snap).initialSyncDone = true
    ∧ (st.initialSyncDone = true → lookupA st.players id = none →
        lookupA (client_sync_snapshot_2d st snap).players id = none)
    ∧ (st.initialSyncDone = false → (lastVal snap id).isSome →
        (lookupA (client_sync_snapshot_2d st snap).players id).isSome) := by
  refine ⟨rfl, ?_, ?_⟩
  · intro hsd hnone
    rw [show (client_sync_snapshot_2d st snap).players
      = snap.foldl (snapStep2d st.initialSyncDone) st.players from rfl, hsd]
    rw [snap2d_lookup_done]
    cases hl : lastVal snap id with
    | none => exact hnone
    | some v => simp [hnone]
  · intro hsd hsome
    rw [show (client_sync_snapshot_2d st snap).players
      = snap.foldl (snapStep2d st.initialSyncDone) st.players from rfl, hsd]
    rw [snap2d_lookup_fresh]
    cases hl : lastVal snap id with
    | none =>
      rw [hl] at hsome
      simp at hsome
    | some v => simp [hl]

/-- Witness for C9: with the flag already set, a snapshot entry for the
unknown id 2 does not enter the view, and the flag stays set. -/
theorem initial_sync_flag_spec_witness :
    (client_sync_snapshot_2d syncWitnessView syncWitnessSnap).initialSyncDone = true
    ∧ lookupA (client_sync_snapshot_2d syncWitnessView syncWitnessSnap).players 2 = none :=
  ⟨(initial_sync_flag_spec syncWitnessView syncWitnessSnap 2).1,
   (initial_sync_flag_spec syncWitnessView syncWitnessSnap 2).2.1 rfl rfl⟩

/-! ## The color picker -/

theorem foldl_min_le_init {α : Type _} [LinearOrder α] (l : List α) (a : α) :
    l.foldl min a ≤ a := by
  induction l generalizing a with
  | nil => exact le_refl a
  | cons x xs ih =>
    calc xs.foldl min (min a x) ≤ min a x := ih _
    _ ≤ a := min_le_left _ _

theorem foldl_min_le_of_mem {α : Type _} [LinearOrder α] {l : List α} {x : α}
    (h : x ∈ l) (a : α) : l.foldl min a ≤ x := by
  induction l generalizing a with
  | nil => cases h
  | cons y ys ih =>
    rcases List.mem_cons.mp h with rfl | hy
    · calc ys.foldl min (min a x) ≤ min a x := foldl_min_le_init _ _
      _ ≤ x := min_le_right _ _
    · exact ih hy _

theorem le_foldl_min {α : Type _} [LinearOrder α] {l : List α} {b a : α} (ha : b ≤ a)
    (h : ∀ x ∈ l, b ≤ x) : b ≤ l.foldl min a := by
  induction l generalizing a with
  | nil => exact ha
  | cons y ys ih =>
    exact ih (le_min ha (h y (List.mem_cons_self y ys)))
      fun x hx => h x (List.mem_cons_of_mem _ hx)

theorem color_distance_self (c : Col) : color_distance c c = 0 := by
  simp [color_distance]

theorem color_distance_nonneg (a b : Col) : 0 ≤ color_distance a b :=
  Real.sqrt_nonneg _

theorem get_player_color_a (k : Nat) : (get_player_color k).a = 1 := rfl

theorem min_distance_le_of_mem {sel : List Col} {x : Col} (h : x ∈ sel) (c : Col) :
    min_distance sel c ≤ ((color_distance x c : ℝ) : WithTop ℝ) :=
  foldl_min_le_of_mem
    (List.mem_map_of_mem (fun y => ((color_distance y c : ℝ) : WithTop ℝ)) h) ⊤

theorem zero_le_min_distance (sel : List Col) (c : Col) :
    ((0 : ℝ) : WithTop ℝ) ≤ min_distance sel c := by
  apply le_foldl_min le_top
  intro x hx
  obtain ⟨y, _, rfl⟩ := List.mem_map.mp hx
  exact_mod_cast color_distance_nonneg y c

theorem min_distance_eq_zero_of_mem {sel : List Col} {c : Col} (h : c ∈ sel) :
    min_distance sel c = ((0 : ℝ) : WithTop ℝ) := by
  apply le_antisymm
  · have hle := min_distance_le_of_mem h c
    rwa [color_distance_self] at hle
  · exact zero_le_min_distance sel c

/-- If every index in `l1` has minimum distance below the threshold and `i`
reaches it, the loop returns the candidate at `i` (the first qualifying
one), whatever running best it carries. -/
theorem pickLoop_first_qualifying (sel : List Col) (base i : Nat) (l2 : List Nat)
    (h2 : ((0.3 : ℝ) : WithTop ℝ) ≤ min_distance sel (get_player_color (base + i))) :
    ∀ (l1 : List Nat),
      (∀ j ∈ l1, min_distance sel (get_player_color (base + j)) < ((0.3 : ℝ) : WithTop ℝ)) →
      ∀ (bc : Col) (bd : WithTop ℝ),
      pickLoop sel base bc bd (l1 ++ i :: l2) = get_player_color (base + i)
  | [] => by
    intro _ bc bd
    simp only [List.nil_append, pickLoop]
    rw [if_pos h2]
  | j :: l1' => by
    intro h1 bc bd
    have hj := h1 j (List.mem_cons_self _ _)
    simp only [List.cons_append, pickLoop]
    rw [if_neg (not_le.mpr hj)]
    by_cases hb : bd < min_distance sel (get_player_color (base + j))
    · rw [if_pos hb]
      exact pickLoop_first_qualifying sel base i l2 h2 l1'
        (fun x hx => h1 x (List.mem_cons_of_mem _ hx)) _ _
    · rw [if_neg hb]
      exact pickLoop_first_qualifying sel base i l2 h2 l1'
        (fun x hx => h1 x (List.mem_cons_of_mem _ hx)) _ _

/-- When no index reaches the threshold, the loop degenerates to the
running-best fold. -/
theorem pickLoop_no_qualifier (sel : List Col) (base : Nat) :
    ∀ (l : List Nat),
      (∀ j ∈ l, min_distance sel (get_player_color (base + j)) < ((0.3 : ℝ) : WithTop ℝ)) →
      ∀ (bc : Col) (bd : WithTop ℝ),
      pickLoop sel base bc bd l = foldBest sel base bc bd l
  | [] => by
    intro _ bc bd
    rfl
  | j :: l' => by
    intro h bc bd
    have hj := h j (List.mem_cons_self _ _)
    simp only [pickLoop, foldBest]
    rw [if_neg (not_le.mpr hj)]
    by_cases hb : bd < min_distance sel (get_player_color (base + j))
    · rw [if_pos hb, if_pos hb]
      exact pickLoop_no_qualifier sel base l'
        (fun x hx => h x (List.mem_cons_of_mem _ hx)) _ _
    · rw [if_neg hb, if_neg hb]
      exact pickLoop_no_qualifier sel base l'
        (fun x hx => h x (List.mem_cons_of_mem _ hx)) _ _

/-- The running-best fold never improves on a best distance that already
dominates every remaining index. -/
theorem foldBest_all_le (sel : List Col) (base : Nat) :
    ∀ (l : List Nat) (bc : Col) (bd : WithTop ℝ),
      (∀ j ∈ l, min_distance sel (get_player_color (base + j)) ≤ bd) →
      foldBest sel base bc bd l = bc
  | [] => by
    intro bc bd _
    rfl
  | j :: l' => by
    intro bc bd h
    simp only [foldBest]
    rw [if_neg (not_lt.mpr (h j (List.mem_cons_self _ _)))]
    exact foldBest_all_le sel base l' bc bd fun x hx => h x (List.mem_cons_of_mem _ hx)

/-- The running-best fold returns the candidate of the first index attaining
the maximum, provided that maximum strictly beats the incoming best. -/
theorem foldBest_first_argmax (sel : List Col) (base i : Nat) (l2 : List Nat)
    (h3 : ∀ j ∈ l2, min_distance sel (get_player_color (base + j))
        ≤ min_distance sel (get_player_color (base + i))) :
    ∀ (l1 : List Nat),
      (∀ j ∈ l1, min_distance sel (get_player_color (base + j))
        < min_distance sel (get_player_color (base + i))) →
      ∀ (bc : Col) (bd : WithTop ℝ),
      bd < min_distance sel (get_player_color (base + i)) →
      foldBest sel base bc bd (l1 ++ i :: l2) = get_player_color (base + i)
  | [] => by
    intro _ bc bd hbd
    simp only [List.nil_append, foldBest]
    rw [if_pos hbd]
    exact foldBest_all_le sel base l2 _ _ h3
  | j :: l1' => by
    intro h1 bc bd hbd
    simp only [List.cons_append, foldBest]
    by_cases hb : bd < min_distance sel (get_player_color (base + j))
    · rw [if_pos hb]
      exact foldBest_first_argmax sel base i l2 h3 l1'
        (fun x hx => h1 x (List.mem_cons_of_mem _ hx)) _ _ (h1 j (List.mem_cons_self _ _))
    · rw [if_neg hb]
      exact foldBest_first_argmax sel base i l2 h3 l1'
        (fun x hx => h1 x (List.mem_cons_of_mem _ hx)) _ _ hbd

theorem range_split {n i : Nat} (h : i < n) :
    List.range n = List.range i ++ i :: List.range' (i + 1) (n - i - 1) := by
  have hni : n - i + i = n := by omega
  rw [List.range_eq_range', ← hni, ← List.range'_append_1 0 i (n - i)]
  congr 1
  · rw [List.range_eq_range']
  · have h1 : n - i = (n - i - 1) + 1 := by omega
    rw [h1, List.range'_succ]
    simp

/-- C4 (amended): `pick_new_player_color` generates candidates
`allocate(len(palette) + i)`, `i < 20`; it returns the first candidate whose
minimum RGB distance to every palette color reaches the 0.3 threshold; if no
candidate reaches it, it returns the first candidate attaining the largest
minimum distance seen when that largest distance is positive, and the zero
color `[0,0,0,0]` — not a candidate at all — when every candidate is at
minimum distance 0 from the palette; in every case the returned color is
appended to the palette, and it differs from every palette color except in
that degenerate all-zero-distance case. -/
theorem pick_new_player_color_spec (sel : List Col) :
    (pick_new_player_color sel).2 = sel ++ [(pick_new_player_color sel).1]
    ∧ ((∃ i, i < 20
          ∧ ((0.3 : ℝ) : WithTop ℝ) ≤ min_distance sel (get_player_color (sel.length + i))
          ∧ (∀ j, j < i →
              min_distance sel (get_player_color (sel.length + j)) < ((0.3 : ℝ) : WithTop ℝ))
          ∧ (pick_new_player_color sel).1 = get_player_color (sel.length + i))
      ∨ ((∀ i, i < 20 →
            min_distance sel (get_player_color (sel.length + i)) < ((0.3 : ℝ) : WithTop ℝ))
          ∧ ((∃ i, i < 20
                ∧ ((0 : ℝ) : WithTop ℝ) < min_distance sel (get_player_color (sel.length + i))
                ∧ (∀ j, j < 20 → min_distance sel (get_player_color (sel.length + j))
                    ≤ min_distance sel (get_player_color (sel.length + i)))
                ∧ (∀ j, j < i → min_distance sel (get_player_color (sel.length + j))
                    < min_distance sel (get_player_color (sel.length + i)))
                ∧ (pick_new_player_color sel).1 = get_player_color (sel.length + i))
            ∨ ((∀ i, i < 20 →
                  min_distance sel (get_player_color (sel.length + i)) ≤ ((0 : ℝ) : WithTop ℝ))
                ∧ (pick_new_player_color sel).1 = zeroColor))))
    ∧ ((∀ i, i < 20 →
          min_distance sel (get_player_color (sel.length + i)) ≤ ((0 : ℝ) : WithTop ℝ))
        ∨ (pick_new_player_color sel).1 ∉ sel) := by
  classical
  have hres : (pick_new_player_color sel).1
      = pickLoop sel sel.length zeroColor ((0 : ℝ) : WithTop ℝ) (List.range 20) := rfl
  have hmain : (∃ i, i < 20
        ∧ ((0.3 : ℝ) : WithTop ℝ) ≤ min_distance sel (get_player_color (sel.length + i))
        ∧ (∀ j, j < i →
            min_distance sel (get_player_color (sel.length + j)) < ((0.3 : ℝ) : WithTop ℝ))
        ∧ (pick_new_player_color sel).1 = get_player_color (sel.length + i))
      ∨ ((∀ i, i < 20 →
            min_distance sel (get_player_color (sel.length + i)) < ((0.3 : ℝ) : WithTop ℝ))
        ∧ ((∃ i, i < 20
              ∧ ((0 : ℝ) : WithTop ℝ) < min_distance sel (get_player_color (sel.length + i))
              ∧ (∀ j, j < 20 → min_distance sel (get_player_color (sel.length + j))
                  ≤ min_distance sel (get_player_color (sel.length + i)))
              ∧ (∀ j, j < i → min_distance sel (get_player_color (sel.length + j))
                  < min_distance sel (get_player_color (sel.length + i)))
              ∧ (pick_new_player_color sel).1 = get_player_color (sel.length + i))
          ∨ ((∀ i, i < 20 →
                min_distance sel (get_player_color (sel.length + i)) ≤ ((0 : ℝ) : WithTop ℝ))
              ∧ (pick_new_player_color sel).1 = zeroColor))) := by
    by_cases hQ : ∃ i, i < 20
        ∧ ((0.3 : ℝ) : WithTop ℝ) ≤ min_distance sel (get_player_color (sel.length + i))
    · left
      have hi0 := Nat.find_spec hQ
      have hmin : ∀ j, j < Nat.find hQ →
          min_distance sel (get_player_color (sel.length + j)) < ((0.3 : ℝ) : WithTop ℝ) := by
        intro j hj
        have hj20 : j < 20 := lt_trans hj hi0.1
        have := Nat.find_min hQ hj
        exact not_le.mp fun hc => this ⟨hj20, hc⟩
      refine ⟨Nat.find hQ, hi0.1, hi0.2, hmin, ?_⟩
      rw [hres, range_split hi0.1]
      exact pickLoop_first_qualifying sel sel.length (Nat.find hQ) _ hi0.2 _
        (fun j hj => hmin j (List.mem_range.mp hj)) _ _
    · right
      have hall : ∀ i, i < 20 →
          min_distance sel (get_player_color (sel.length + i)) < ((0.3 : ℝ) : WithTop ℝ) :=
        fun i hi => not_le.mp fun hc => hQ ⟨i, hi, hc⟩
      refine ⟨hall, ?_⟩
      have hfb : (pick_new_player_color sel).1
          = foldBest sel sel.length zeroColor ((0 : ℝ) : WithTop ℝ) (List.range 20) := by
        rw [hres]
        exact pickLoop_no_qualifier sel sel.length (List.range 20)
          (fun j hj => hall j (List.mem_range.mp hj)) _ _
      by_cases hR : ∃ i, i < 20
          ∧ ((0 : ℝ) : WithTop ℝ) < min_distance sel (get_player_color (sel.length + i))
      · left
        obtain ⟨b, hb20, hbmax⟩ := Finset.exists_max_image (Finset.range 20)
          (fun i => min_distance sel (get_player_color (sel.length + i)))
          ⟨0, Finset.mem_range.mpr (by norm_num)⟩
        have hbmax' : ∀ j, j < 20 → min_distance sel (get_player_color (sel.length + j))
            ≤ min_distance sel (get_player_color (sel.length + b)) :=
          fun j hj => hbmax j (Finset.mem_range.mpr hj)
        have hA : ∃ i, i < 20 ∧ min_distance sel (get_player_color (sel.length + i))
            = min_distance sel (get_player_color (sel.length + b)) :=
          ⟨b, Finset.mem_range.mp hb20, rfl⟩
        have hiA := Nat.find_spec hA
        have hmaxA : ∀ j, j < 20 → min_distance sel (get_player_color (sel.length + j))
            ≤ min_distance sel (get_player_color (sel.length + Nat.find hA)) := by
          intro j hj
          rw [hiA.2]
          exact hbmax' j hj
        have hpreA : ∀ j, j < Nat.find hA →
            min_distance sel (get_player_color (sel.length + j))
              < min_distance sel (get_player_color (sel.length + Nat.find hA)) := by
          intro j hj
          have hj20 : j < 20 := lt_trans hj hiA.1
          refine lt_of_le_of_ne (hmaxA j hj20) fun heq => ?_
          exact Nat.find_min hA hj ⟨hj20, heq.trans hiA.2⟩
        have hposA : ((0 : ℝ) : WithTop ℝ)
            < min_distance sel (get_player_color (sel.length + Nat.find hA)) := by
          obtain ⟨r, hr20, hrpos⟩ := hR
          exact lt_of_lt_of_le hrpos (hmaxA r hr20)
        refine ⟨Nat.find hA, hiA.1, hposA, hmaxA, hpreA, ?_⟩
        rw [hfb, range_split hiA.1]
        refine foldBest_first_argmax sel sel.length (Nat.find hA) _ ?_ _
          (fun j hj => hpreA j (List.mem_range.mp hj)) _ _ hposA
        intro j hj
        obtain ⟨t, _, rfl⟩ := List.mem_range'.mp hj
        exact hmaxA _ (by omega)
      · right
        have hall0 : ∀ i, i < 20 →
            min_distance sel (get_player_color (sel.length + i)) ≤ ((0 : ℝ) : WithTop ℝ) :=
          fun i hi => not_lt.mp fun hc => hR ⟨i, hi, hc⟩
        refine ⟨hall0, ?_⟩
        rw [hfb]
        exact foldBest_all_le sel sel.length (List.range 20) _ _
          fun j hj => hall0 j (List.mem_range.mp hj)
  refine ⟨rfl, hmain, ?_⟩
  by_cases hA : ∀ i, i < 20 →
      min_distance sel (get_player_color (sel.length + i)) ≤ ((0 : ℝ) : WithTop ℝ)
  · exact Or.inl hA
  · right
    intro hmem
    have habs : ∀ i, (pick_new_player_color sel).1 = get_player_color (sel.length + i) →
        min_distance sel (get_player_color (sel.length + i)) ≤ ((0 : ℝ) : WithTop ℝ) := by
      intro i heq
      have hle := min_distance_le_of_mem (heq ▸ hmem) (get_player_color (sel.length + i))
      rwa [color_distance_self] at hle
    rcases hmain with ⟨i, _, hge, _, heq⟩ | ⟨_, ⟨i, _, hpos, _, _, heq⟩ | ⟨hall0, _⟩⟩
    · have h03 : ((0.3 : ℝ) : WithTop ℝ) ≤ ((0 : ℝ) : WithTop ℝ) :=
        le_trans hge (habs i heq)
      have : (0.3 : ℝ) ≤ 0 := by exact_mod_cast h03
      norm_num at this
    · exact absurd (lt_of_lt_of_le hpos (habs i heq)) (lt_irrefl _)
    · exact hA hall0

/-- Witness for C4 at the empty palette: the chosen color is pushed onto the
palette before returning. -/
theorem pick_new_player_color_spec_witness :
    (pick_new_player_color []).2 = [] ++ [(pick_new_player_color []).1] :=
  (pick_new_player_color_spec []).1

/-- C4 counterexample: on the 21-color palette holding the zero color and
all twenty candidates its length generates, every candidate sits at minimum
distance 0 from the palette, so no strict improvement over the initial best
distance 0.0 ever happens: the function returns the initial `[0,0,0,0]`
buffer — which is a color already in the palette and is not one of the
twenty candidates (their alpha is 1.0) — contradicting both the
largest-minimum-distance clause and the never-returns-a-palette-color
clause of the claim. -/
theorem pick_degenerate_cx :
    (pick_new_player_color degeneratePalette).1 ∈ degeneratePalette
    ∧ (pick_new_player_color degeneratePalette).1 ∉ candidates degeneratePalette.length := by
  have hlen : degeneratePalette.length = 21 := by
    simp [degeneratePalette, candidates]
  have hmd : ∀ j, j < 20 →
      min_distance degeneratePalette
        (get_player_color (degeneratePalette.length + j)) ≤ ((0 : ℝ) : WithTop ℝ) := by
    intro j hj
    have hmem : get_player_color (degeneratePalette.length + j) ∈ degeneratePalette := by
      rw [hlen]
      exact List.mem_cons_of_mem _
        (List.mem_map_of_mem (fun i => get_player_color (21 + i)) (List.mem_range.mpr hj))
    rw [min_distance_eq_zero_of_mem hmem]
  have hall : ∀ j ∈ List.range 20,
      min_distance degeneratePalette
        (get_player_color (degeneratePalette.length + j)) < ((0.3 : ℝ) : WithTop ℝ) := by
    intro j hj
    have h1 := hmd j (List.mem_range.mp hj)
    have h2 : ((0 : ℝ) : WithTop ℝ) < ((0.3 : ℝ) : WithTop ℝ) := by
      exact_mod_cast (by norm_num : (0 : ℝ) < 0.3)
    exact lt_of_le_of_lt h1 h2
  have hresult : (pick_new_player_color degeneratePalette).1 = zeroColor := by
    have h1 : (pick_new_player_color degeneratePalette).1
        = pickLoop degeneratePalette degeneratePalette.length zeroColor
            ((0 : ℝ) : WithTop ℝ) (List.range 20) := rfl
    rw [h1, pickLoop_no_qualifier degeneratePalette degeneratePalette.length
      (List.range 20) hall]
    exact foldBest_all_le degeneratePalette degeneratePalette.length (List.range 20) _ _
      fun j hj => hmd j (List.mem_range.mp hj)
  constructor
  · rw [hresult]
    exact List.mem_cons_self _ _
  · rw [hresult]
    intro hmem
    simp only [candidates, hlen] at hmem
    obtain ⟨i, _, heq⟩ := List.mem_map.mp hmem
    have h2 := congrArg Col.a heq
    rw [get_player_color_a, show zeroColor.a = 0 from rfl] at h2
    exact one_ne_zero h2

/-- C10: on the empty palette the minimum-distance fold starts from (and
keeps) `f32::INFINITY`, which passes the `≥ 0.3` test immediately, so the
very first candidate `allocate(0)` is returned and the palette becomes the
one-element list holding exactly that color. -/
theorem pick_on_empty_palette :
    pick_new_player_color [] = (get_player_color 0, [get_player_color 0])
    ∧ min_distance [] (get_player_color 0) = ⊤ := by
  have hnil : min_distance [] (get_player_color (0 + 0)) = ⊤ := by
    simp only [min_distance, List.map_nil, List.foldl_nil]
  have hc : pickLoop [] 0 zeroColor ((0 : ℝ) : WithTop ℝ) (List.range 20)
      = get_player_color 0 := by
    have h := pickLoop_first_qualifying [] 0 0 ((List.range 19).map Nat.succ)
      (by rw [hnil]; exact le_top) []
      (fun j hj => absurd hj (List.not_mem_nil j)) zeroColor ((0 : ℝ) : WithTop ℝ)
    rw [List.nil_append] at h
    rw [show List.range 20 = 0 :: (List.range 19).map Nat.succ from
      List.range_succ_eq_map 19, h, Nat.add_zero]
  refine ⟨?_, by simp only [min_distance, List.map_nil, List.foldl_nil]⟩
  unfold pick_new_player_color
  simp only [List.length_nil, List.nil_append]
  rw [hc]

end Multiplayer
